import Mathlib

/-
Verification of the MBMDRClassifieR cell-partitioning and test-statistic
pipeline (src/src/ModelClassification.h over the dataset view of
src/src/Data.h).  Real-valued quantities (outcomes, probabilities, the
test statistic) are modelled with ℚ; machine counters with Nat.
-/

namespace MBMDR

/-- An observation of the dataset view (src/src/Data.h): integer-coded
feature values (one per feature column) and a real-valued outcome. -/
structure Observation where
  features : List ℕ
  outcome : ℚ
deriving DecidableEq, Repr

/-- The dataset view (src/src/Data.h): `N` observations × `n_feat`
features plus one outcome per observation. -/
structure Dataset where
  obs : List Observation
  n_feat : ℕ
deriving DecidableEq

/-- Feature accessor (Data::getFeature in src/src/Data.h), per observation. -/
def getFeature (o : Observation) (j : ℕ) : ℕ :=
  o.features.getD j 0

/-- An observation is a case when its outcome equals 1 (spec §4.2:
outcome == 1 is a case; outcomes are strictly binary-coded). -/
def isCase (o : Observation) : Bool :=
  decide (o.outcome = 1)

/-- Modelled from the spec (§4.1 Genotype Cell Indexer; the body of the
indexer used by ModelClassification::getCounts is not under src/):
radix/positional encoding of a feature-value tuple in base `card`. -/
def encodeCell (card : ℕ) (vals : List ℕ) : ℕ :=
  vals.foldl (fun id v => id * card + v) 0

/-- Modelled from the spec (§4.1): the cell id of one observation is the
positional encoding of its values on the selected feature columns. -/
def cellIndex (card : ℕ) (sel : List ℕ) (o : Observation) : ℕ :=
  encodeCell card (sel.map (fun j => getFeature o j))

/-- Size of the cell space: `cardinality ^ order` (spec §4.1). -/
def cellCount (card order : ℕ) : ℕ :=
  card ^ order

/-- Modelled from the spec (§4.2 Cell Statistics; the body of
ModelClassification::getCounts is not under src/): the per-cell case
count produced by the single counting pass, i.e. the number of case
observations whose cell id is `c`. -/
def cellCases (card : ℕ) (sel : List ℕ) (obs : List Observation) (c : ℕ) : ℕ :=
  obs.countP (fun o => cellIndex card sel o == c && isCase o)

/-- Modelled from the spec (§4.2): the per-cell control count. -/
def cellControls (card : ℕ) (sel : List ℕ) (obs : List Observation) (c : ℕ) : ℕ :=
  obs.countP (fun o => cellIndex card sel o == c && !isCase o)

/-- Total number of case observations. -/
def totalCases (obs : List Observation) : ℕ :=
  obs.countP isCase

/-- Modelled from the spec (§4.2): `mu` = total cases / N, the overall
case ratio (field ModelClassification::mu). -/
def muOf (obs : List Observation) : ℚ :=
  (totalCases obs : ℚ) / (obs.length : ℚ)

/-- Modelled from the spec (§4.2): in-cell case probability
(vector ModelClassification::case_prob_in_cell); undefined (`none`)
on an empty cell. -/
def probInCell (card : ℕ) (sel : List ℕ) (obs : List Observation) (c : ℕ) : Option ℚ :=
  let a := cellCases card sel obs c
  let b := cellControls card sel obs c
  if a + b = 0 then none
  else some ((a : ℚ) / ((a : ℚ) + (b : ℚ)))

/-- Modelled from the spec (§4.2): out-of-cell case probability
(vector ModelClassification::case_prob_out_cell), guarded against a
zero denominator. -/
def probOutCell (card : ℕ) (sel : List ℕ) (obs : List Observation) (c : ℕ) : Option ℚ :=
  let a := cellCases card sel obs c
  let b := cellControls card sel obs c
  let den : ℚ := (obs.length : ℚ) - ((a : ℚ) + (b : ℚ))
  if den = 0 then none
  else some (((totalCases obs : ℚ) - (a : ℚ)) / den)

/-- Modelled from the spec (§4.3 Risk Classifier; the body of
ModelClassification::classifyCells is not under src/): a non-empty cell
is labeled high-risk (`some true`) when its in-cell case probability is
strictly greater than the baseline `mu`, low-risk (`some false`)
otherwise (ties go to low-risk); an empty cell gets no label (`none`). -/
def labelCell (card : ℕ) (sel : List ℕ) (obs : List Observation) (c : ℕ) : Option Bool :=
  (probInCell card sel obs c).map (fun p => decide (muOf obs < p))

/-- Cases aggregated over all cells carrying risk label `hi` (spec §4.4:
the 2×2 contingency structure of the test statistic). -/
def groupCases (card order : ℕ) (sel : List ℕ) (obs : List Observation) (hi : Bool) : ℕ :=
  ((List.range (cellCount card order)).map
    (fun c => if labelCell card sel obs c = some hi then cellCases card sel obs c else 0)).sum

/-- Controls aggregated over all cells carrying risk label `hi`. -/
def groupControls (card order : ℕ) (sel : List ℕ) (obs : List Observation) (hi : Bool) : ℕ :=
  ((List.range (cellCount card order)).map
    (fun c => if labelCell card sel obs c = some hi then cellControls card sel obs c else 0)).sum

/-- Modelled from the spec (§4.4): chi-squared-style contribution of one
risk group, comparing observed case/control counts with the counts
expected under the baseline rate `mu`; every division is guarded, and an
empty risk group contributes zero. -/
def groupContribution (mu : ℚ) (gc gn : ℕ) : ℚ :=
  let n : ℚ := (gc : ℚ) + (gn : ℚ)
  if n = 0 then 0
  else
    (if mu * n = 0 then 0 else ((gc : ℚ) - mu * n) ^ 2 / (mu * n)) +
    (if (1 - mu) * n = 0 then 0 else ((gn : ℚ) - (1 - mu) * n) ^ 2 / ((1 - mu) * n))

/-- Modelled from the spec (§4.4; the body of
ModelClassification::calculateModelTestStatistic is not under src/): the
model test statistic is the sum of the high-risk and low-risk group
contributions. -/
def testStatistic (card order : ℕ) (sel : List ℕ) (obs : List Observation) : ℚ :=
  groupContribution (muOf obs) (groupCases card order sel obs true) (groupControls card order sel obs true) +
  groupContribution (muOf obs) (groupCases card order sel obs false) (groupControls card order sel obs false)

/-- Distinguishable failure kinds of a fitting run (spec §7). -/
inductive FitError where
  | inputShape
  | dataDomain
deriving DecidableEq, Repr

/-- The state stored by a successful fitting run: the fields of
ModelClassification (cases, controls, case_prob_in_cell,
case_prob_out_cell, mu) together with the risk labels and the test
statistic. -/
structure FitResult where
  numCells : ℕ
  cases : ℕ → ℕ
  controls : ℕ → ℕ
  case_prob_in_cell : ℕ → Option ℚ
  case_prob_out_cell : ℕ → Option ℚ
  mu : ℚ
  label : ℕ → Option Bool
  statistic : ℚ

/-- Duplicate check on the feature selection. -/
def noDup : List ℕ → Bool
  | [] => true
  | x :: xs => !(xs.contains x) && noDup xs

/-- Modelled from the spec (§7 input-shape errors): the dataset is
non-empty, the selection has length `order`, its indices are distinct
and within the feature range. -/
def shapeOk (order : ℕ) (sel : List ℕ) (d : Dataset) : Bool :=
  decide (0 < d.obs.length) && (sel.length == order) && noDup sel &&
  sel.all (fun j => j < d.n_feat)

/-- Modelled from the spec (§7 data-domain errors): every selected
feature value lies inside the cardinality and every outcome is
binary-coded. -/
def domainOk (card : ℕ) (sel : List ℕ) (d : Dataset) : Bool :=
  d.obs.all (fun o => sel.all (fun j => getFeature o j < card)) &&
  d.obs.all (fun o => o.outcome == 0 || o.outcome == 1)

/-- The full state produced by a successful run of the pipeline. -/
def mkFitResult (card order : ℕ) (sel : List ℕ) (obs : List Observation) : FitResult where
  numCells := cellCount card order
  cases := cellCases card sel obs
  controls := cellControls card sel obs
  case_prob_in_cell := probInCell card sel obs
  case_prob_out_cell := probOutCell card sel obs
  mu := muOf obs
  label := labelCell card sel obs
  statistic := testStatistic card order sel obs

/-- Modelled from the spec (state machine of §4 and error policy of §7;
the body of ModelClassification::fit is not under src/): `fit` validates
the input shape, then the data domain, and only then runs
counting → classification → statistic, storing the results.  In C++
`fit()` returns void, stores its results in the model and signals
failure by throwing; this is embedded as `Except`: `.error` carries no
numeric state at all, `.ok` carries the full stored state. -/
def fit (card order : ℕ) (sel : List ℕ) (d : Dataset) : Except FitError FitResult :=
  if !shapeOk order sel d then .error .inputShape
  else if !domainOk card sel d then .error .dataDomain
  else .ok (mkFitResult card order sel d.obs)

/-- Scenario A of spec §8: feature values [0,0,1,1], outcomes [1,0,1,0]. -/
def dataA : Dataset :=
  ⟨[⟨[0], 1⟩, ⟨[0], 0⟩, ⟨[1], 1⟩, ⟨[1], 0⟩], 1⟩

/-- Scenario B of spec §8: feature values [0,0,1,1], outcomes [1,1,0,0]. -/
def dataB : Dataset :=
  ⟨[⟨[0], 1⟩, ⟨[0], 1⟩, ⟨[1], 0⟩, ⟨[1], 0⟩], 1⟩

/-- Scenario A with its observations listed in reverse order. -/
def dataARev : Dataset :=
  ⟨[⟨[1], 0⟩, ⟨[1], 1⟩, ⟨[0], 0⟩, ⟨[0], 1⟩], 1⟩

/-- The structural-validity conditions enumerated by spec §7: non-empty
dataset, selection of length `order` with distinct in-range indices,
feature values inside the cardinality, binary-coded outcomes. -/
def structurallyValid (card order : ℕ) (sel : List ℕ) (d : Dataset) : Prop :=
  0 < d.obs.length ∧ sel.length = order ∧ sel.Nodup ∧
  (∀ j ∈ sel, j < d.n_feat) ∧
  (∀ o ∈ d.obs, ∀ j ∈ sel, getFeature o j < card) ∧
  (∀ o ∈ d.obs, o.outcome = 0 ∨ o.outcome = 1)

/-! Helper lemmas about the positional cell encoding. -/

theorem encode_from (card : ℕ) (vals : List ℕ) : ∀ a : ℕ,
    vals.foldl (fun id v => id * card + v) a = a * card ^ vals.length + encodeCell card vals := by
  induction vals with
  | nil => intro a; simp [encodeCell]
  | cons v vs ih =>
    intro a
    have hv : encodeCell card (v :: vs) = v * card ^ vs.length + encodeCell card vs := by
      show vs.foldl _ (0 * card + v) = _
      rw [ih (0 * card + v)]
      ring
    show vs.foldl _ (a * card + v) = _
    rw [ih (a * card + v), hv, List.length_cons, pow_succ]
    ring

theorem encode_lt (card : ℕ) (vals : List ℕ) (h : ∀ v ∈ vals, v < card) :
    encodeCell card vals < card ^ vals.length := by
  induction vals with
  | nil => simp [encodeCell]
  | cons v vs ih =>
    have hv : v < card := h v (List.mem_cons_self _ _)
    have hvs : encodeCell card vs < card ^ vs.length :=
      ih (fun x hx => h x (List.mem_cons_of_mem _ hx))
    have hd : encodeCell card (v :: vs) = v * card ^ vs.length + encodeCell card vs := by
      show vs.foldl _ (0 * card + v) = _
      rw [encode_from card vs (0 * card + v)]
      ring
    rw [hd, List.length_cons, pow_succ]
    calc v * card ^ vs.length + encodeCell card vs
        < v * card ^ vs.length + card ^ vs.length := Nat.add_lt_add_left hvs _
      _ = (v + 1) * card ^ vs.length := by ring
      _ ≤ card * card ^ vs.length := Nat.mul_le_mul_right _ hv
      _ = card ^ vs.length * card := by ring

theorem encode_inj (card : ℕ) : ∀ v1 v2 : List ℕ, v1.length = v2.length →
    (∀ v ∈ v1, v < card) → (∀ v ∈ v2, v < card) →
    encodeCell card v1 = encodeCell card v2 → v1 = v2 := by
  intro v1
  induction v1 with
  | nil =>
    intro v2 hlen _ _ _
    cases v2 with
    | nil => rfl
    | cons y ys => simp at hlen
  | cons x xs ih =>
    intro v2 hlen h1 h2 henc
    cases v2 with
    | nil => simp at hlen
    | cons y ys =>
      have hlen' : xs.length = ys.length := by simpa using hlen
      have hdx : encodeCell card (x :: xs) = card ^ xs.length * x + encodeCell card xs := by
        show xs.foldl _ (0 * card + x) = _
        rw [encode_from card xs (0 * card + x)]; ring
      have hdy : encodeCell card (y :: ys) = card ^ xs.length * y + encodeCell card ys := by
        show ys.foldl _ (0 * card + y) = _
        rw [encode_from card ys (0 * card + y), hlen']; ring
      have hex : encodeCell card xs < card ^ xs.length :=
        encode_lt card xs (fun v hv => h1 v (List.mem_cons_of_mem _ hv))
      have hey : encodeCell card ys < card ^ xs.length := by
        rw [hlen']
        exact encode_lt card ys (fun v hv => h2 v (List.mem_cons_of_mem _ hv))
      have hB : 0 < card ^ xs.length := Nat.lt_of_le_of_lt (Nat.zero_le _) hex
      have hkey : card ^ xs.length * x + encodeCell card xs
          = card ^ xs.length * y + encodeCell card ys := by
        rw [← hdx, ← hdy, henc]
      have hxy : x = y := by
        have dx : (encodeCell card xs + card ^ xs.length * x) / card ^ xs.length = x := by
          rw [Nat.add_mul_div_left _ _ hB, Nat.div_eq_of_lt hex]; omega
        have dy : (encodeCell card ys + card ^ xs.length * y) / card ^ xs.length = y := by
          rw [Nat.add_mul_div_left _ _ hB, Nat.div_eq_of_lt hey]; omega
        rw [← dx, ← dy]
        congr 1
        omega
      have htail : encodeCell card xs = encodeCell card ys := by
        rw [hxy] at hkey
        omega
      have : xs = ys :=
        ih ys hlen' (fun v hv => h1 v (List.mem_cons_of_mem _ hv))
          (fun v hv => h2 v (List.mem_cons_of_mem _ hv)) htail
      rw [hxy, this]

/-! Helper lemmas about sums and counts. -/

theorem sum_map_add {α : Type} (l : List α) (f g : α → ℕ) :
    (l.map (fun x => f x + g x)).sum = (l.map f).sum + (l.map g).sum := by
  induction l with
  | nil => simp
  | cons a l ih => simp [ih]; omega

theorem sum_range_ite_eq (n x k : ℕ) (hx : x < n) :
    ((List.range n).map (fun c => if x = c then k else 0)).sum = k := by
  induction n with
  | zero => omega
  | succ n ih =>
    rw [List.range_succ, List.map_append, List.sum_append]
    by_cases h : x < n
    · rw [ih h]
      have hne : x ≠ n := Nat.ne_of_lt h
      simp [hne]
    · have hxn : x = n := by omega
      subst hxn
      have hz : ((List.range x).map (fun c => if x = c then k else 0)).sum = 0 := by
        apply List.sum_eq_zero
        intro y hy
        rcases List.mem_map.mp hy with ⟨c, hc, hcy⟩
        have : c < x := List.mem_range.mp hc
        rw [← hcy, if_neg (by omega)]
      rw [hz]
      simp

theorem sum_range_ite_zero (n x k : ℕ) (hx : ¬ x < n) :
    ((List.range n).map (fun c => if x = c then k else 0)).sum = 0 := by
  apply List.sum_eq_zero
  intro y hy
  rcases List.mem_map.mp hy with ⟨c, hc, hcy⟩
  have : c < n := List.mem_range.mp hc
  rw [← hcy, if_neg (by omega)]

theorem sum_cellCounts (card : ℕ) (sel : List ℕ) (m : ℕ) (p : Observation → Bool)
    (obs : List Observation) (h : ∀ o ∈ obs, cellIndex card sel o < m) :
    ((List.range m).map
      (fun c => obs.countP (fun o => cellIndex card sel o == c && p o))).sum
      = obs.countP p := by
  induction obs with
  | nil => simp
  | cons o l ih =>
    have hl := ih (fun o' ho' => h o' (List.mem_cons_of_mem _ ho'))
    have ho := h o (List.mem_cons_self _ _)
    simp only [List.countP_cons]
    rw [sum_map_add, hl]
    by_cases hp : p o
    · have hsum : ((List.range m).map
          (fun c => if (cellIndex card sel o == c && p o) = true then 1 else 0)).sum = 1 := by
        have heq : (fun c => if (cellIndex card sel o == c && p o) = true then 1 else 0)
            = (fun c => if cellIndex card sel o = c then 1 else 0) := by
          funext c
          by_cases hc : cellIndex card sel o = c
          · simp [hc, hp]
          · simp [hc]
        rw [heq]
        exact sum_range_ite_eq m _ 1 ho
      rw [hsum, if_pos hp]
    · have hp' : p o = false := by simpa using hp
      have hsum : ((List.range m).map
          (fun c => if (cellIndex card sel o == c && p o) = true then 1 else 0)).sum = 0 := by
        apply List.sum_eq_zero
        intro y hy
        rcases List.mem_map.mp hy with ⟨c, _, hcy⟩
        rw [← hcy, hp']
        simp
      rw [hsum, if_neg (by simp [hp'])]

theorem countP_split (q p : Observation → Bool) (l : List Observation) :
    l.countP (fun o => q o && p o) + l.countP (fun o => q o && !p o) = l.countP q := by
  induction l with
  | nil => simp
  | cons o l ih =>
    simp only [List.countP_cons]
    by_cases hq : q o <;> by_cases hp : p o <;> simp [hq, hp] <;> omega

theorem countP_not_add (p : Observation → Bool) (l : List Observation) :
    l.countP p + l.countP (fun o => !p o) = l.length := by
  induction l with
  | nil => simp
  | cons o l ih =>
    simp only [List.countP_cons, List.length_cons]
    by_cases hp : p o <;> simp [hp] <;> omega

/-! Helper lemmas unpacking the validation checks and the shape of `fit`. -/

theorem noDup_iff (l : List ℕ) : noDup l = true ↔ l.Nodup := by
  induction l with
  | nil => simp [noDup]
  | cons x xs ih => simp [noDup, List.nodup_cons, ← ih]

theorem shapeOk_iff (order : ℕ) (sel : List ℕ) (d : Dataset) :
    shapeOk order sel d = true ↔
      0 < d.obs.length ∧ sel.length = order ∧ sel.Nodup ∧ ∀ j ∈ sel, j < d.n_feat := by
  simp only [shapeOk, Bool.and_eq_true, decide_eq_true_eq, beq_iff_eq,
    List.all_eq_true, noDup_iff]
  tauto

theorem domainOk_iff (card : ℕ) (sel : List ℕ) (d : Dataset) :
    domainOk card sel d = true ↔
      (∀ o ∈ d.obs, ∀ j ∈ sel, getFeature o j < card) ∧
      ∀ o ∈ d.obs, o.outcome = 0 ∨ o.outcome = 1 := by
  simp only [domainOk, Bool.and_eq_true, List.all_eq_true, decide_eq_true_eq,
    Bool.or_eq_true]
  constructor
  · rintro ⟨h1, h2⟩
    refine ⟨h1, fun o ho => ?_⟩
    rcases h2 o ho with h | h
    · left; exact eq_of_beq h
    · right; exact eq_of_beq h
  · rintro ⟨h1, h2⟩
    refine ⟨h1, fun o ho => ?_⟩
    rcases h2 o ho with h | h
    · left; exact beq_iff_eq.mpr h
    · right; exact beq_iff_eq.mpr h

theorem fit_ok_elim {card order : ℕ} {sel : List ℕ} {d : Dataset} {r : FitResult}
    (h : fit card order sel d = .ok r) :
    shapeOk order sel d = true ∧ domainOk card sel d = true ∧
    r = mkFitResult card order sel d.obs := by
  unfold fit at h
  by_cases h1 : shapeOk order sel d = true
  · by_cases h2 : domainOk card sel d = true
    · simp only [h1, h2, Bool.not_true, Bool.false_eq_true, if_false,
        Except.ok.injEq] at h
      exact ⟨h1, h2, h.symm⟩
    · have h2' : domainOk card sel d = false := by
        cases hb : domainOk card sel d
        · rfl
        · exact absurd hb h2
      simp [h1, h2'] at h
  · have h1' : shapeOk order sel d = false := by
      cases hb : shapeOk order sel d
      · rfl
      · exact absurd hb h1
    simp [h1'] at h

theorem cellIndex_lt_cellCount {card order : ℕ} {sel : List ℕ}
    (hlen : sel.length = order) (o : Observation)
    (hval : ∀ j ∈ sel, getFeature o j < card) :
    cellIndex card sel o < cellCount card order := by
  have h := encode_lt card (sel.map (fun j => getFeature o j)) (by
    intro v hv
    rcases List.mem_map.mp hv with ⟨j, hj, rfl⟩
    exact hval j hj)
  rw [List.length_map, hlen] at h
  exact h

theorem cellTotal_eq_countP (card : ℕ) (sel : List ℕ) (obs : List Observation) (c : ℕ) :
    cellCases card sel obs c + cellControls card sel obs c
      = obs.countP (fun o => cellIndex card sel o == c) :=
  countP_split (fun o => cellIndex card sel o == c) isCase obs

theorem cellTotal_le_length (card : ℕ) (sel : List ℕ) (obs : List Observation) (c : ℕ) :
    cellCases card sel obs c + cellControls card sel obs c ≤ obs.length := by
  rw [cellTotal_eq_countP]
  exact List.countP_le_length _

/-! Helper lemmas: every pipeline stage is invariant under permutation of
the observations. -/

theorem all_perm {α : Type} {l1 l2 : List α} (hp : l1.Perm l2) (p : α → Bool) :
    l1.all p = l2.all p := by
  have hiff : (l1.all p = true) ↔ (l2.all p = true) := by
    simp only [List.all_eq_true]
    exact ⟨fun h x hx => h x (hp.mem_iff.mpr hx), fun h x hx => h x (hp.mem_iff.mp hx)⟩
  cases hb1 : l1.all p <;> cases hb2 : l2.all p
  · rfl
  · exact absurd (hiff.mpr hb2) (by simp [hb1])
  · exact absurd (hiff.mp hb1) (by simp [hb2])
  · rfl

theorem cellCases_perm (card : ℕ) (sel : List ℕ) {l1 l2 : List Observation}
    (hp : l1.Perm l2) : cellCases card sel l1 = cellCases card sel l2 :=
  funext fun _ => hp.countP_eq _

theorem cellControls_perm (card : ℕ) (sel : List ℕ) {l1 l2 : List Observation}
    (hp : l1.Perm l2) : cellControls card sel l1 = cellControls card sel l2 :=
  funext fun _ => hp.countP_eq _

theorem totalCases_perm {l1 l2 : List Observation} (hp : l1.Perm l2) :
    totalCases l1 = totalCases l2 :=
  hp.countP_eq _

theorem muOf_perm {l1 l2 : List Observation} (hp : l1.Perm l2) :
    muOf l1 = muOf l2 := by
  unfold muOf
  rw [totalCases_perm hp, hp.length_eq]

theorem probInCell_perm (card : ℕ) (sel : List ℕ) {l1 l2 : List Observation}
    (hp : l1.Perm l2) : probInCell card sel l1 = probInCell card sel l2 := by
  funext c
  unfold probInCell
  rw [cellCases_perm card sel hp, cellControls_perm card sel hp]

theorem probOutCell_perm (card : ℕ) (sel : List ℕ) {l1 l2 : List Observation}
    (hp : l1.Perm l2) : probOutCell card sel l1 = probOutCell card sel l2 := by
  funext c
  unfold probOutCell
  rw [cellCases_perm card sel hp, cellControls_perm card sel hp,
    totalCases_perm hp, hp.length_eq]

theorem labelCell_perm (card : ℕ) (sel : List ℕ) {l1 l2 : List Observation}
    (hp : l1.Perm l2) : labelCell card sel l1 = labelCell card sel l2 := by
  funext c
  unfold labelCell
  rw [probInCell_perm card sel hp, muOf_perm hp]

theorem groupCases_perm (card order : ℕ) (sel : List ℕ) {l1 l2 : List Observation}
    (hp : l1.Perm l2) : groupCases card order sel l1 = groupCases card order sel l2 := by
  funext hi
  unfold groupCases
  rw [labelCell_perm card sel hp, cellCases_perm card sel hp]

theorem groupControls_perm (card order : ℕ) (sel : List ℕ) {l1 l2 : List Observation}
    (hp : l1.Perm l2) : groupControls card order sel l1 = groupControls card order sel l2 := by
  funext hi
  unfold groupControls
  rw [labelCell_perm card sel hp, cellControls_perm card sel hp]

theorem testStatistic_perm (card order : ℕ) (sel : List ℕ) {l1 l2 : List Observation}
    (hp : l1.Perm l2) : testStatistic card order sel l1 = testStatistic card order sel l2 := by
  unfold testStatistic
  rw [muOf_perm hp, groupCases_perm card order sel hp, groupControls_perm card order sel hp]

theorem mkFitResult_perm (card order : ℕ) (sel : List ℕ) {l1 l2 : List Observation}
    (hp : l1.Perm l2) : mkFitResult card order sel l1 = mkFitResult card order sel l2 := by
  unfold mkFitResult
  rw [cellCases_perm card sel hp, cellControls_perm card sel hp,
    probInCell_perm card sel hp, probOutCell_perm card sel hp, muOf_perm hp,
    labelCell_perm card sel hp, testStatistic_perm card order sel hp]

theorem shapeOk_perm (order : ℕ) (sel : List ℕ) {d1 d2 : Dataset}
    (hp : d1.obs.Perm d2.obs) (hf : d1.n_feat = d2.n_feat) :
    shapeOk order sel d1 = shapeOk order sel d2 := by
  unfold shapeOk
  rw [hp.length_eq, hf]

theorem domainOk_perm (card : ℕ) (sel : List ℕ) {d1 d2 : Dataset}
    (hp : d1.obs.Perm d2.obs) :
    domainOk card sel d1 = domainOk card sel d2 := by
  unfold domainOk
  rw [all_perm hp, all_perm hp]

/-! Concrete evaluations on the two spec §8 scenarios. -/

theorem cellCases_A0 : cellCases 2 [0] dataA.obs 0 = 1 := by decide

theorem cellControls_A0 : cellControls 2 [0] dataA.obs 0 = 1 := by decide

theorem cellCases_A1 : cellCases 2 [0] dataA.obs 1 = 1 := by decide

theorem cellControls_A1 : cellControls 2 [0] dataA.obs 1 = 1 := by decide

theorem totalCases_A : totalCases dataA.obs = 2 := by decide

theorem len_A : dataA.obs.length = 4 := by decide

theorem muOf_A : muOf dataA.obs = 1/2 := by
  rw [muOf, totalCases_A, len_A]
  norm_num

theorem probIn_A0 : probInCell 2 [0] dataA.obs 0 = some (1/2) := by
  simp [probInCell, cellCases_A0, cellControls_A0]
  norm_num

theorem probIn_A1 : probInCell 2 [0] dataA.obs 1 = some (1/2) := by
  simp [probInCell, cellCases_A1, cellControls_A1]
  norm_num

theorem label_A0 : labelCell 2 [0] dataA.obs 0 = some false := by
  rw [labelCell, probIn_A0]
  simp [muOf_A]

theorem label_A1 : labelCell 2 [0] dataA.obs 1 = some false := by
  rw [labelCell, probIn_A1]
  simp [muOf_A]

theorem range_cellCount_21 : List.range (cellCount 2 1) = [0, 1] := by decide

theorem groupCases_A_true : groupCases 2 1 [0] dataA.obs true = 0 := by
  simp [groupCases, range_cellCount_21, label_A0, label_A1]

theorem groupControls_A_true : groupControls 2 1 [0] dataA.obs true = 0 := by
  simp [groupControls, range_cellCount_21, label_A0, label_A1]

theorem groupCases_A_false : groupCases 2 1 [0] dataA.obs false = 2 := by
  simp [groupCases, range_cellCount_21, label_A0, label_A1, cellCases_A0, cellCases_A1]

theorem groupControls_A_false : groupControls 2 1 [0] dataA.obs false = 2 := by
  simp [groupControls, range_cellCount_21, label_A0, label_A1,
    cellControls_A0, cellControls_A1]

theorem stat_A : testStatistic 2 1 [0] dataA.obs = 0 := by
  rw [testStatistic, groupCases_A_true, groupControls_A_true,
    groupCases_A_false, groupControls_A_false, muOf_A]
  simp [groupContribution]
  norm_num

theorem cellCases_B0 : cellCases 2 [0] dataB.obs 0 = 2 := by decide

theorem cellControls_B0 : cellControls 2 [0] dataB.obs 0 = 0 := by decide

theorem cellCases_B1 : cellCases 2 [0] dataB.obs 1 = 0 := by decide

theorem cellControls_B1 : cellControls 2 [0] dataB.obs 1 = 2 := by decide

theorem totalCases_B : totalCases dataB.obs = 2 := by decide

theorem len_B : dataB.obs.length = 4 := by decide

theorem muOf_B : muOf dataB.obs = 1/2 := by
  rw [muOf, totalCases_B, len_B]
  norm_num

theorem probIn_B0 : probInCell 2 [0] dataB.obs 0 = some 1 := by
  simp [probInCell, cellCases_B0, cellControls_B0]

theorem probIn_B1 : probInCell 2 [0] dataB.obs 1 = some 0 := by
  simp [probInCell, cellCases_B1, cellControls_B1]

theorem label_B0 : labelCell 2 [0] dataB.obs 0 = some true := by
  rw [labelCell, probIn_B0]
  simp [muOf_B]
  norm_num

theorem label_B1 : labelCell 2 [0] dataB.obs 1 = some false := by
  rw [labelCell, probIn_B1]
  simp [muOf_B]

theorem groupCases_B_true : groupCases 2 1 [0] dataB.obs true = 2 := by
  simp [groupCases, range_cellCount_21, label_B0, label_B1, cellCases_B0]

theorem groupControls_B_true : groupControls 2 1 [0] dataB.obs true = 0 := by
  simp [groupControls, range_cellCount_21, label_B0, label_B1, cellControls_B0]

theorem groupCases_B_false : groupCases 2 1 [0] dataB.obs false = 0 := by
  simp [groupCases, range_cellCount_21, label_B0, label_B1, cellCases_B1]

theorem groupControls_B_false : groupControls 2 1 [0] dataB.obs false = 2 := by
  simp [groupControls, range_cellCount_21, label_B0, label_B1, cellControls_B1]

theorem stat_B : testStatistic 2 1 [0] dataB.obs = 4 := by
  rw [testStatistic, groupCases_B_true, groupControls_B_true,
    groupCases_B_false, groupControls_B_false, muOf_B]
  simp [groupContribution]
  norm_num

/-- C1: after a successful `fit`, the per-cell case counts sum to the
number of case observations, the per-cell control counts sum to the
number of control observations, and together the two counts cover every
observation exactly once. -/
theorem fit_counting_completeness (card order : ℕ) (sel : List ℕ) (d : Dataset)
    (r : FitResult) (h : fit card order sel d = .ok r) :
    ((List.range r.numCells).map r.cases).sum = totalCases d.obs ∧
    ((List.range r.numCells).map r.controls).sum = d.obs.countP (fun o => !isCase o) ∧
    totalCases d.obs + d.obs.countP (fun o => !isCase o) = d.obs.length := by
  obtain ⟨hs, hd, rfl⟩ := fit_ok_elim h
  obtain ⟨hN, hlen, hnd, hrange⟩ := (shapeOk_iff order sel d).mp hs
  obtain ⟨hval, hout⟩ := (domainOk_iff card sel d).mp hd
  have hbound : ∀ o ∈ d.obs, cellIndex card sel o < cellCount card order :=
    fun o ho => cellIndex_lt_cellCount hlen o (hval o ho)
  refine ⟨?_, ?_, countP_not_add isCase d.obs⟩
  · have hsum := sum_cellCounts card sel (cellCount card order) isCase d.obs hbound
    simpa [mkFitResult, cellCases, totalCases] using hsum
  · have hsum := sum_cellCounts card sel (cellCount card order)
      (fun o => !isCase o) d.obs hbound
    simpa [mkFitResult, cellControls] using hsum

/-- Closed instance of `fit_counting_completeness` at Scenario B. -/
theorem fit_counting_completeness_witness :
    ((List.range (mkFitResult 2 1 [0] dataB.obs).numCells).map
        (mkFitResult 2 1 [0] dataB.obs).cases).sum = totalCases dataB.obs ∧
    ((List.range (mkFitResult 2 1 [0] dataB.obs).numCells).map
        (mkFitResult 2 1 [0] dataB.obs).controls).sum
      = dataB.obs.countP (fun o => !isCase o) ∧
    totalCases dataB.obs + dataB.obs.countP (fun o => !isCase o) = dataB.obs.length :=
  fit_counting_completeness 2 1 [0] dataB (mkFitResult 2 1 [0] dataB.obs) rfl

/-- C2: after a successful `fit`, a non-empty cell with in-cell case
probability `p` is labeled high-risk exactly when `p` is strictly
greater than the baseline `mu`; an exact tie is labeled low-risk, and a
cell with in-cell case rate 1 is labeled high-risk whenever `mu < 1`. -/
theorem classifyCells_rule (card order : ℕ) (sel : List ℕ) (d : Dataset)
    (r : FitResult) (h : fit card order sel d = .ok r) (c : ℕ) (p : ℚ)
    (hp : r.case_prob_in_cell c = some p) :
    (r.label c = some true ↔ r.mu < p) ∧
    (p = r.mu → r.label c = some false) ∧
    (p = 1 → r.mu < 1 → r.label c = some true) := by
  obtain ⟨hs, hd, rfl⟩ := fit_ok_elim h
  have hp' : probInCell card sel d.obs c = some p := hp
  have hl : (mkFitResult card order sel d.obs).label c
      = some (decide (muOf d.obs < p)) := by
    show labelCell card sel d.obs c = _
    rw [labelCell, hp']
    rfl
  refine ⟨?_, ?_, ?_⟩
  · rw [hl]
    show some (decide (muOf d.obs < p)) = some true ↔ muOf d.obs < p
    simp
  · intro hpe
    rw [hl]
    have : muOf d.obs = (mkFitResult card order sel d.obs).mu := rfl
    rw [this, ← hpe]
    simp [lt_irrefl]
  · intro h1 hmu
    rw [hl, h1]
    have : muOf d.obs = (mkFitResult card order sel d.obs).mu := rfl
    simp only [this]
    simp [hmu]

/-- Closed instance of `classifyCells_rule` at Scenario B, cell 0. -/
theorem classifyCells_rule_witness :
    ((mkFitResult 2 1 [0] dataB.obs).label 0 = some true ↔
      (mkFitResult 2 1 [0] dataB.obs).mu < 1) ∧
    ((1:ℚ) = (mkFitResult 2 1 [0] dataB.obs).mu →
      (mkFitResult 2 1 [0] dataB.obs).label 0 = some false) ∧
    ((1:ℚ) = 1 → (mkFitResult 2 1 [0] dataB.obs).mu < 1 →
      (mkFitResult 2 1 [0] dataB.obs).label 0 = some true) :=
  classifyCells_rule 2 1 [0] dataB (mkFitResult 2 1 [0] dataB.obs) rfl 0 1 probIn_B0

/-- C4: after a successful `fit`, `mu` equals total cases divided by the
number of observations and lies in `[0, 1]`. -/
theorem mu_spec (card order : ℕ) (sel : List ℕ) (d : Dataset) (r : FitResult)
    (h : fit card order sel d = .ok r) :
    r.mu = (totalCases d.obs : ℚ) / (d.obs.length : ℚ) ∧ 0 ≤ r.mu ∧ r.mu ≤ 1 := by
  obtain ⟨hs, hd, rfl⟩ := fit_ok_elim h
  obtain ⟨hN, -, -, -⟩ := (shapeOk_iff order sel d).mp hs
  have hNq : (0:ℚ) < (d.obs.length : ℚ) := by exact_mod_cast hN
  refine ⟨rfl, ?_, ?_⟩
  · show 0 ≤ muOf d.obs
    unfold muOf
    positivity
  · show muOf d.obs ≤ 1
    unfold muOf
    rw [div_le_one hNq]
    exact_mod_cast List.countP_le_length (α := Observation) isCase

/-- Closed instance of `mu_spec` at Scenario B. -/
theorem mu_spec_witness :
    (mkFitResult 2 1 [0] dataB.obs).mu
      = (totalCases dataB.obs : ℚ) / (dataB.obs.length : ℚ) ∧
    0 ≤ (mkFitResult 2 1 [0] dataB.obs).mu ∧
    (mkFitResult 2 1 [0] dataB.obs).mu ≤ 1 :=
  mu_spec 2 1 [0] dataB (mkFitResult 2 1 [0] dataB.obs) rfl

/-- C5: after a successful `fit`, a non-empty cell's in-cell case
probability equals cases/(cases+controls) and lies in `[0, 1]`; an empty
cell gets no probability, no risk label, and contributes nothing to
either risk group of the test statistic. -/
theorem case_prob_in_cell_spec (card order : ℕ) (sel : List ℕ) (d : Dataset)
    (r : FitResult) (h : fit card order sel d = .ok r) (c : ℕ) :
    (0 < r.cases c + r.controls c →
      r.case_prob_in_cell c
        = some ((r.cases c : ℚ) / ((r.cases c : ℚ) + (r.controls c : ℚ))) ∧
      ∀ p, r.case_prob_in_cell c = some p → 0 ≤ p ∧ p ≤ 1) ∧
    (r.cases c + r.controls c = 0 →
      r.case_prob_in_cell c = none ∧ r.label c = none ∧
      ∀ b : Bool, (if r.label c = some b then r.cases c else 0) = 0 ∧
                  (if r.label c = some b then r.controls c else 0) = 0) := by
  obtain ⟨hs, hd, rfl⟩ := fit_ok_elim h
  constructor
  · intro hpos
    have hpos' : 0 < cellCases card sel d.obs c + cellControls card sel d.obs c := hpos
    have hne : ¬ (cellCases card sel d.obs c + cellControls card sel d.obs c = 0) := by
      omega
    have heq : probInCell card sel d.obs c
        = some ((cellCases card sel d.obs c : ℚ) /
            ((cellCases card sel d.obs c : ℚ) + (cellControls card sel d.obs c : ℚ))) := by
      simp only [probInCell]
      rw [if_neg hne]
    refine ⟨heq, ?_⟩
    intro p hp
    have hp' : probInCell card sel d.obs c = some p := hp
    rw [heq] at hp'
    have hpv := Option.some.inj hp'
    rw [← hpv]
    have hden : (0:ℚ) < (cellCases card sel d.obs c : ℚ) + (cellControls card sel d.obs c : ℚ) := by
      have : ((cellCases card sel d.obs c + cellControls card sel d.obs c : ℕ) : ℚ)
          = (cellCases card sel d.obs c : ℚ) + (cellControls card sel d.obs c : ℚ) := by
        push_cast
        ring
      rw [← this]
      exact_mod_cast hpos'
    constructor
    · positivity
    · apply div_le_one_of_le₀
      · have hle : (cellCases card sel d.obs c : ℚ) ≤
            (cellCases card sel d.obs c : ℚ) + (cellControls card sel d.obs c : ℚ) := by
          have : (0:ℚ) ≤ (cellControls card sel d.obs c : ℚ) := by positivity
          linarith
        exact hle
      · linarith
  · intro hz
    have hz' : cellCases card sel d.obs c + cellControls card sel d.obs c = 0 := hz
    have hpi : probInCell card sel d.obs c = none := by
      simp only [probInCell]
      rw [if_pos hz']
    have hlab : labelCell card sel d.obs c = none := by
      rw [labelCell, hpi]
      rfl
    have hl2 : (mkFitResult card order sel d.obs).label c = none := hlab
    have hc0 : cellCases card sel d.obs c = 0 := by omega
    have hn0 : cellControls card sel d.obs c = 0 := by omega
    refine ⟨hpi, hlab, ?_⟩
    intro b
    rw [hl2]
    simp

/-- Closed instance of `case_prob_in_cell_spec` at Scenario B, cell 0. -/
theorem case_prob_in_cell_spec_witness :
    (mkFitResult 2 1 [0] dataB.obs).case_prob_in_cell 0
      = some (((mkFitResult 2 1 [0] dataB.obs).cases 0 : ℚ) /
          (((mkFitResult 2 1 [0] dataB.obs).cases 0 : ℚ) +
           ((mkFitResult 2 1 [0] dataB.obs).controls 0 : ℚ))) ∧
    ∀ p, (mkFitResult 2 1 [0] dataB.obs).case_prob_in_cell 0 = some p →
      0 ≤ p ∧ p ≤ 1 :=
  (case_prob_in_cell_spec 2 1 [0] dataB (mkFitResult 2 1 [0] dataB.obs) rfl 0).1
    (by decide)

/-- C6: after a successful `fit`, the out-of-cell case probability of a
cell not containing the whole dataset equals
(total cases − cases)/(N − cases − controls), and the zero-denominator
case (the cell holds all N observations) is guarded to `none` instead of
a division fault. -/
theorem case_prob_out_cell_spec (card order : ℕ) (sel : List ℕ) (d : Dataset)
    (r : FitResult) (h : fit card order sel d = .ok r) (c : ℕ) :
    (r.cases c + r.controls c < d.obs.length →
      r.case_prob_out_cell c
        = some (((totalCases d.obs : ℚ) - (r.cases c : ℚ)) /
            ((d.obs.length : ℚ) - ((r.cases c : ℚ) + (r.controls c : ℚ))))) ∧
    (r.cases c + r.controls c = d.obs.length →
      r.case_prob_out_cell c = none) := by
  obtain ⟨hs, hd, rfl⟩ := fit_ok_elim h
  constructor
  · intro hlt
    have hlt' : cellCases card sel d.obs c + cellControls card sel d.obs c
        < d.obs.length := hlt
    have hden : (d.obs.length : ℚ) -
        ((cellCases card sel d.obs c : ℚ) + (cellControls card sel d.obs c : ℚ)) ≠ 0 := by
      have hq : (cellCases card sel d.obs c : ℚ) + (cellControls card sel d.obs c : ℚ)
          < (d.obs.length : ℚ) := by
        exact_mod_cast hlt'
      linarith
    show probOutCell card sel d.obs c = _
    simp only [probOutCell]
    rw [if_neg hden]
    rfl
  · intro heq
    have heq' : cellCases card sel d.obs c + cellControls card sel d.obs c
        = d.obs.length := heq
    have hden : (d.obs.length : ℚ) -
        ((cellCases card sel d.obs c : ℚ) + (cellControls card sel d.obs c : ℚ)) = 0 := by
      have hq : (cellCases card sel d.obs c : ℚ) + (cellControls card sel d.obs c : ℚ)
          = (d.obs.length : ℚ) := by
        exact_mod_cast heq'
      linarith
    show probOutCell card sel d.obs c = none
    simp only [probOutCell]
    rw [if_pos hden]

/-- Closed instance of `case_prob_out_cell_spec` at Scenario B, cell 0. -/
theorem case_prob_out_cell_spec_witness :
    (mkFitResult 2 1 [0] dataB.obs).case_prob_out_cell 0
      = some (((totalCases dataB.obs : ℚ) - ((mkFitResult 2 1 [0] dataB.obs).cases 0 : ℚ)) /
          ((dataB.obs.length : ℚ) -
            (((mkFitResult 2 1 [0] dataB.obs).cases 0 : ℚ) +
             ((mkFitResult 2 1 [0] dataB.obs).controls 0 : ℚ)))) :=
  (case_prob_out_cell_spec 2 1 [0] dataB (mkFitResult 2 1 [0] dataB.obs) rfl 0).1
    (by decide)

/-- C7: `fit` fails with a distinguishable error, producing no result
state, exactly when the input violates one of the structural conditions
of spec §7; an empty dataset and a duplicated feature index each fail
with an input-shape error before any counting. -/
theorem fit_error_spec (card order : ℕ) (sel : List ℕ) (d : Dataset) :
    ((∃ e, fit card order sel d = .error e) ↔ ¬ structurallyValid card order sel d) ∧
    ((∃ e, fit card order sel d = .error e) → ∀ r, fit card order sel d ≠ .ok r) ∧
    (d.obs.length = 0 → fit card order sel d = .error .inputShape) ∧
    (¬ sel.Nodup → fit card order sel d = .error .inputShape) := by
  have hvalid : structurallyValid card order sel d ↔
      (shapeOk order sel d = true ∧ domainOk card sel d = true) := by
    rw [shapeOk_iff, domainOk_iff]
    unfold structurallyValid
    tauto
  have hshape_false : ∀ hsf : shapeOk order sel d = false,
      fit card order sel d = .error .inputShape := by
    intro hsf
    simp [fit, hsf]
  refine ⟨?_, ?_, ?_, ?_⟩
  · by_cases h1 : shapeOk order sel d = true
    · by_cases h2 : domainOk card sel d = true
      · have hfit : fit card order sel d = .ok (mkFitResult card order sel d.obs) := by
          simp [fit, h1, h2]
        constructor
        · rintro ⟨e, he⟩
          rw [hfit] at he
          exact Except.noConfusion he
        · intro hnv
          exact absurd (hvalid.mpr ⟨h1, h2⟩) hnv
      · have h2' : domainOk card sel d = false := by
          cases hb : domainOk card sel d
          · rfl
          · exact absurd hb h2
        have hfit : fit card order sel d = .error .dataDomain := by
          simp [fit, h1, h2']
        constructor
        · intro _ hv
          exact h2 (hvalid.mp hv).2
        · intro _
          exact ⟨.dataDomain, hfit⟩
    · have h1' : shapeOk order sel d = false := by
        cases hb : shapeOk order sel d
        · rfl
        · exact absurd hb h1
      constructor
      · intro _ hv
        exact h1 (hvalid.mp hv).1
      · intro _
        exact ⟨.inputShape, hshape_false h1'⟩
  · rintro ⟨e, he⟩ r hr
    rw [he] at hr
    exact Except.noConfusion hr
  · intro hN
    apply hshape_false
    cases hb : shapeOk order sel d
    · rfl
    · exfalso
      obtain ⟨hpos, -, -, -⟩ := (shapeOk_iff order sel d).mp hb
      omega
  · intro hnd
    apply hshape_false
    cases hb : shapeOk order sel d
    · rfl
    · exfalso
      obtain ⟨-, -, hndp, -⟩ := (shapeOk_iff order sel d).mp hb
      exact hnd hndp

/-- Closed instance of `fit_error_spec`: the empty dataset fails with an
input-shape error. -/
theorem fit_error_spec_witness :
    fit 2 1 [0] (⟨[], 1⟩ : Dataset) = .error .inputShape :=
  (fit_error_spec 2 1 [0] ⟨[], 1⟩).2.2.1 rfl

/-- C8: the cell indexer is a pure function of the selected
feature-value tuple: equal tuples give equal cell ids, tuples differing
on a selected feature give different cell ids, and every cell id lies in
`[0, cardinality ^ order)`. -/
theorem cellIndexer_spec (card order : ℕ) (sel : List ℕ) (o1 o2 : Observation)
    (hord : sel.length = order)
    (h1 : ∀ j ∈ sel, getFeature o1 j < card)
    (h2 : ∀ j ∈ sel, getFeature o2 j < card) :
    ((∀ j ∈ sel, getFeature o1 j = getFeature o2 j) →
      cellIndex card sel o1 = cellIndex card sel o2) ∧
    ((∃ j ∈ sel, getFeature o1 j ≠ getFeature o2 j) →
      cellIndex card sel o1 ≠ cellIndex card sel o2) ∧
    cellIndex card sel o1 < cellCount card order := by
  refine ⟨?_, ?_, cellIndex_lt_cellCount hord o1 h1⟩
  · intro hsame
    unfold cellIndex
    congr 1
    exact List.map_congr_left (fun j hj => hsame j hj)
  · rintro ⟨j, hj, hne⟩ heq
    have heq' : encodeCell card (sel.map (fun i => getFeature o1 i))
        = encodeCell card (sel.map (fun i => getFeature o2 i)) := heq
    have hmaps : sel.map (fun i => getFeature o1 i) = sel.map (fun i => getFeature o2 i) := by
      apply encode_inj card _ _ (by simp)
      · intro v hv
        rcases List.mem_map.mp hv with ⟨i, hi, rfl⟩
        exact h1 i hi
      · intro v hv
        rcases List.mem_map.mp hv with ⟨i, hi, rfl⟩
        exact h2 i hi
      · exact heq'
    exact hne (List.map_inj_left.mp hmaps j hj)

/-- Closed instance of `cellIndexer_spec` on two observations that
differ on the selected feature. -/
theorem cellIndexer_spec_witness :
    ((∀ j ∈ [0], getFeature ⟨[0], 1⟩ j = getFeature ⟨[1], 0⟩ j) →
      cellIndex 2 [0] ⟨[0], 1⟩ = cellIndex 2 [0] ⟨[1], 0⟩) ∧
    ((∃ j ∈ [0], getFeature ⟨[0], 1⟩ j ≠ getFeature ⟨[1], 0⟩ j) →
      cellIndex 2 [0] ⟨[0], 1⟩ ≠ cellIndex 2 [0] ⟨[1], 0⟩) ∧
    cellIndex 2 [0] ⟨[0], 1⟩ < cellCount 2 1 :=
  cellIndexer_spec 2 1 [0] ⟨[0], 1⟩ ⟨[1], 0⟩ rfl (by decide) (by decide)

/-- C9: `fit` is invariant under permutation of the observations: the
permuted dataset yields the same counts, probabilities, labels and test
statistic (the entire stored result coincides). -/
theorem fit_permutation_invariant (card order : ℕ) (sel : List ℕ) (d1 d2 : Dataset)
    (hp : d1.obs.Perm d2.obs) (hf : d1.n_feat = d2.n_feat) :
    fit card order sel d1 = fit card order sel d2 := by
  unfold fit
  rw [shapeOk_perm order sel hp hf, domainOk_perm card sel hp,
    mkFitResult_perm card order sel hp]

/-- Closed instance of `fit_permutation_invariant`: Scenario A and its
reversal produce identical fit results. -/
theorem fit_permutation_invariant_witness :
    fit 2 1 [0] dataA = fit 2 1 [0] dataARev :=
  fit_permutation_invariant 2 1 [0] dataA dataARev (by decide) rfl

/-- C10: `fit` communicates its results only through the stored model
state: every run yields either a full stored-state result or a
distinguishable error, never both, and a successful run's result is
exactly the stored pipeline state. -/
theorem fit_state_or_failure (card order : ℕ) (sel : List ℕ) (d : Dataset) :
    ((∃ r, fit card order sel d = .ok r) ↔ ¬ ∃ e, fit card order sel d = .error e) ∧
    (∀ r, fit card order sel d = .ok r → r = mkFitResult card order sel d.obs) := by
  constructor
  · rcases hfit : fit card order sel d with e | r
    · simp [hfit]
    · simp [hfit]
  · intro r hr
    exact (fit_ok_elim hr).2.2

/-- Closed instance of `fit_state_or_failure` at Scenario A. -/
theorem fit_state_or_failure_witness :
    ¬ ∃ e, fit 2 1 [0] dataA = .error e :=
  (fit_state_or_failure 2 1 [0] dataA).1.mp ⟨mkFitResult 2 1 [0] dataA.obs, rfl⟩

/-- C3: on the concrete 4-observation scenarios of spec §8, Scenario A
yields per-cell probabilities 1/2, `mu` = 1/2, two low-risk labels and
statistic 0, while Scenario B yields a high-risk cell with probability
1, a low-risk cell with probability 0, and a statistic strictly greater
than 0 and than Scenario A's statistic. -/
theorem scenario_statistics :
    (∃ r, fit 2 1 [0] dataA = .ok r ∧
      r.cases 0 = 1 ∧ r.controls 0 = 1 ∧ r.cases 1 = 1 ∧ r.controls 1 = 1 ∧
      r.case_prob_in_cell 0 = some (1/2) ∧ r.case_prob_in_cell 1 = some (1/2) ∧
      r.mu = 1/2 ∧ r.label 0 = some false ∧ r.label 1 = some false ∧
      r.statistic = 0) ∧
    (∃ r, fit 2 1 [0] dataB = .ok r ∧
      r.cases 0 = 2 ∧ r.controls 0 = 0 ∧ r.cases 1 = 0 ∧ r.controls 1 = 2 ∧
      r.case_prob_in_cell 0 = some 1 ∧ r.label 0 = some true ∧
      r.case_prob_in_cell 1 = some 0 ∧ r.label 1 = some false ∧
      0 < r.statistic ∧ testStatistic 2 1 [0] dataA.obs < r.statistic) := by
  constructor
  · exact ⟨mkFitResult 2 1 [0] dataA.obs, rfl, cellCases_A0, cellControls_A0,
      cellCases_A1, cellControls_A1, probIn_A0, probIn_A1, muOf_A,
      label_A0, label_A1, stat_A⟩
  · refine ⟨mkFitResult 2 1 [0] dataB.obs, rfl, cellCases_B0, cellControls_B0,
      cellCases_B1, cellControls_B1, probIn_B0, label_B0, probIn_B1, label_B1,
      ?_, ?_⟩
    · show (0:ℚ) < testStatistic 2 1 [0] dataB.obs
      rw [stat_B]
      norm_num
    · show testStatistic 2 1 [0] dataA.obs < testStatistic 2 1 [0] dataB.obs
      rw [stat_A, stat_B]
      norm_num

end MBMDR
